import Mathlib

/-!
# Smart-recall-search: verification of the query pipeline

Shallow embedding of the smart-search edge function of the repository
(fragment extraction, confidence scoring, prompt construction and the
request handler), together with spec-level restatements of the documented
properties, and proofs settling each claim.

Strings are modelled as Lean `String` (a structure over `List Char`); the
JavaScript string operations the source uses — toLowerCase, trim,
split on the regex [,;]\s*, split on the regex \s+, includes — are
embedded character-by-character below.  toLowerCase is modelled by the
ASCII lowering `Char.toLower`, which agrees with JavaScript on the basic
latin range and, like JavaScript, never maps a character onto a
separator.  The only numbers the pipeline computes with (confidence
scores) are modelled as rationals; the concrete scores that arise are
small exact decimals, on which rational and IEEE double arithmetic agree.
The handler's external collaborators (database inserts, knowledge
retrieval, the model call) are modelled by an environment record fixing
the outcome of each call; the handler is a pure function from request and
environment to an outcome recording the HTTP response, the rows written,
and the prompt sent to the model.
-/

namespace SmartRecall

/-- The JavaScript whitespace class (as matched by the regexes and by
trim): space, tab, LF, VT, FF, CR, NBSP, Ogham space mark, the Unicode
space separators, line/paragraph separators, narrow no-break space,
medium mathematical space, ideographic space, and the byte-order mark. -/
def isWS (c : Char) : Bool :=
  decide (c.toNat = 32 ∨ c.toNat = 9 ∨ c.toNat = 10 ∨ c.toNat = 11 ∨ c.toNat = 12 ∨
    c.toNat = 13 ∨ c.toNat = 160 ∨ c.toNat = 5760 ∨
    (8192 ≤ c.toNat ∧ c.toNat ≤ 8202) ∨ c.toNat = 8232 ∨ c.toNat = 8233 ∨
    c.toNat = 8239 ∨ c.toNat = 8287 ∨ c.toNat = 12288 ∨ c.toNat = 65279)

/-- The fragment separators of extractFragments: comma and semicolon. -/
def isSep (c : Char) : Bool := decide (c.toNat = 44 ∨ c.toNat = 59)

/-- JavaScript trim: drop leading and trailing whitespace. -/
def trimWS (cs : List Char) : List Char :=
  ((cs.dropWhile isWS).reverse.dropWhile isWS).reverse

/-- Whether the first list is an initial segment of the second. -/
def startsWithList : List Char → List Char → Bool
  | [], _ => true
  | _ :: _, [] => false
  | a :: as, b :: bs => a == b && startsWithList as bs

/-- JavaScript includes: the needle occurs contiguously in the haystack. -/
def containsSub (hay needle : List Char) : Bool :=
  (List.range (hay.length + 1)).any (fun i => startsWithList needle (hay.drop i))

/-- JavaScript split on the regex [,;]\s*, embedded incrementally: each
separator match is one comma or semicolon followed by a greedily consumed
whitespace run; `skip` is true while inside that run. -/
def jsSplitSepAux (skip : Bool) (acc : List Char) : List Char → List (List Char)
  | [] => [acc.reverse]
  | c :: cs =>
    if isSep c then acc.reverse :: jsSplitSepAux true [] cs
    else if skip && isWS c then jsSplitSepAux true acc cs
    else jsSplitSepAux false (c :: acc) cs

/-- JavaScript split on the regex [,;]\s* of a whole string. -/
def jsSplitSep (cs : List Char) : List (List Char) := jsSplitSepAux false [] cs

/-- Splitting on the separator characters alone, nothing else consumed:
the plain reading of the spec phrase about splitting on those separators. -/
def charSplitAux (acc : List Char) : List Char → List (List Char)
  | [] => [acc.reverse]
  | c :: cs =>
    if isSep c then acc.reverse :: charSplitAux [] cs
    else charSplitAux (c :: acc) cs

/-- Splitting a whole string on the separator characters alone. -/
def charSplit (cs : List Char) : List (List Char) := charSplitAux [] cs

/-- JavaScript split on the regex \s+: splits on maximal whitespace runs;
a run at either end contributes an empty piece, and the empty string
yields a single empty piece.  `run` is true while inside a whitespace
run. -/
def jsSplitWSAux (run : Bool) (acc : List Char) : List Char → List (List Char)
  | [] => [acc.reverse]
  | c :: cs =>
    if isWS c then
      if run then jsSplitWSAux true acc cs
      else acc.reverse :: jsSplitWSAux true [] cs
    else jsSplitWSAux false (c :: acc) cs

/-- JavaScript split on the regex \s+ of a whole string. -/
def jsSplitWS (cs : List Char) : List (List Char) := jsSplitWSAux false [] cs

/-- Character-wise lowering (JavaScript toLowerCase, ASCII fragment). -/
def lowerStr (cs : List Char) : List Char := cs.map Char.toLower

/-- The `fragments` local of extractFragments before the final arity
test: lowercase the query, split on the separator regex, trim each piece,
drop the empty pieces. -/
def fragmentsOf (query : String) : List (List Char) :=
  ((jsSplitSep (lowerStr query.data)).map trimWS).filter (fun f => 0 < f.length)

/-- extractFragments (source lines 151-160): the cleaned pieces if there
are at least two of them, otherwise a singleton holding the original
query string. -/
def extractFragments (query : String) : List String :=
  if (fragmentsOf query).length > 1 then (fragmentsOf query).map String.mk
  else [query]

/-- A knowledge-base projection as the handler passes it around:
title, content, tags, created_at. -/
structure Item where
  title : String
  content : String
  tags : List String
  created_at : String
deriving DecidableEq, Repr

/-- The text an item is matched against in the scorer: title, a space,
and content, lowercased. -/
def itemText (item : Item) : List Char :=
  lowerStr (item.title.data ++ ' ' :: item.content.data)

/-- How many of the query words occur as a substring of the content. -/
def countMatches (queryWords : List (List Char)) (content : List Char) : Nat :=
  (queryWords.filter (fun w => containsSub content w)).length

/-- The totalMatches and totalWords accumulators of
calculateConfidenceScore, threaded through the forEach over the items. -/
def scoreTotals (queryWords : List (List Char)) (contextData : List Item) : Nat × Nat :=
  contextData.foldl
    (fun t item => (t.1 + countMatches queryWords (itemText item), t.2 + queryWords.length))
    (0, 0)

/-- calculateConfidenceScore (source lines 162-177): 0.3 on an empty item
list; otherwise clamp totalMatches / totalWords into [0.1, 0.95]. -/
def calculateConfidenceScore (query : String) (contextData : List Item) : ℚ :=
  if contextData.length = 0 then 3/10
  else
    min (95/100) (max (1/10)
      (((scoreTotals (jsSplitWS (lowerStr query.data)) contextData).1 : ℚ) /
        ((scoreTotals (jsSplitWS (lowerStr query.data)) contextData).2 : ℚ)))

/-- The rendering of one context item inside the LLM prompt: Title,
Content and Tags lines followed by a dash rule, where an empty tag join
falls back to the word none (the JavaScript or-default on the join). -/
def renderItem (item : Item) : String :=
  let tagsJoined := String.intercalate ", " item.tags
  "Title: " ++ item.title ++ "\nContent: " ++ item.content ++ "\nTags: " ++
    (if tagsJoined = "" then "none" else tagsJoined) ++ "\n---"

/-- The prompt template of the handler (source lines 66-80): fixed
preamble, the literal query, the rendered items joined by newlines, and
the fixed task instructions. -/
def buildPrompt (query : String) (contextData : List Item) : String :=
  "You are a smart search assistant that helps users find information from incomplete or fragmented queries. \n\nUser\x27s query: \"" ++
  query ++
  "\"\n\nAvailable knowledge base content:\n" ++
  String.intercalate "\n" (contextData.map renderItem) ++
  "\n\nTask: \n1. Analyze the user\x27s query for fragments and incomplete information\n2. If knowledge base content is available, find the most relevant matches\n3. If no direct matches, suggest what the user might be looking for based on the fragments\n4. Provide a helpful, natural response that reconstructs the missing information\n5. If the query is too vague, ask clarifying questions\n\nRespond in a helpful, conversational tone. Focus on being accurate and useful."

/-- A stored search_queries row (the fields the handler inserts,
plus the id the store assigns). -/
structure QueryRow where
  id : String
  user_id : String
  query_text : String
  query_fragments : List String
deriving DecidableEq, Repr

/-- The result_data payload of a search_results row. -/
structure ResultData where
  ai_response : String
  knowledge_matches : List Item
  fragments : List String
deriving DecidableEq, Repr

/-- A stored search_results row. -/
structure ResultRow where
  query_id : String
  result_data : ResultData
  confidence_score : ℚ
  processing_time_ms : Nat
deriving DecidableEq, Repr

/-- One request's environment: the outcome of each external collaborator,
fixed up front (each is consulted at most once; the pipeline never
retries).  The fields, in pipeline order: the search_queries insert
(new row id, or an error), the data of the knowledge-base text search
(none models both a failed retrieval and a null data field — the handler
reads only data and ignores retrieval errors), the model API key from the
process environment, whether the model call returns a 2xx response, the
HTTP status of the model response, the generated text extracted from the
model response body, the error of the search_results insert if that
insert fails, and the measured elapsed time. -/
structure Env where
  queryInsert : Except String String
  knowledgeData : Option (List Item)
  geminiApiKey : Option String
  geminiOk : Bool
  geminiStatus : Nat
  geminiText : Option String
  resultInsertError : Option String
  processingTime : Nat
deriving Repr

/-- The HTTP response of the handler: the success JSON body, or an error
body with a non-success status. -/
inductive Resp where
  | success (response : String) (knowledgeMatches : List Item)
      (processingTime : Nat) (queryId : String)
  | failure (status : Nat) (error : String)
deriving DecidableEq, Repr

/-- Everything observable about one handled request: the response, the
rows each table gained during the request, and the prompt sent to the
model if the model service was invoked. -/
structure Outcome where
  resp : Resp
  queryRows : List QueryRow
  resultRows : List ResultRow
  modelPrompt : Option String
deriving DecidableEq, Repr

/-- The queryRecord local of the handler: the search_queries row it
inserts (id assigned by the store). -/
def queryRowOf (query userId qid : String) : QueryRow :=
  { id := qid, user_id := userId, query_text := query,
    query_fragments := extractFragments query }

/-- The contextData local of the handler: the retrieved rows, or the
empty list when retrieval produced no data (including on error). -/
def contextDataOf (env : Env) : List Item := env.knowledgeData.getD []

/-- The aiResponse local of the handler: the extracted model text, with
the or-default on JavaScript falsiness (absent and empty both fall back
to the fixed message). -/
def aiResponseOf (env : Env) : String :=
  if env.geminiText.getD "" = "" then "No response generated"
  else env.geminiText.getD ""

/-- The search_results row the handler inserts. -/
def resultRowOf (query qid : String) (env : Env) : ResultRow :=
  { query_id := qid,
    result_data :=
      { ai_response := aiResponseOf env,
        knowledge_matches := contextDataOf env,
        fragments := extractFragments query },
    confidence_score := calculateConfidenceScore query (contextDataOf env),
    processing_time_ms := env.processingTime }

/-- The handler after a successful search_queries insert assigning id
qid: the missing-key throw, the model call, the result insert (failure
logged only) and the success response (source lines 44-148). -/
def handleSearchOk (query userId qid : String) (env : Env) : Outcome :=
  if env.geminiApiKey.getD "" = "" then
    { resp := .failure 500 "Gemini API key not configured",
      queryRows := [queryRowOf query userId qid], resultRows := [],
      modelPrompt := none }
  else if env.geminiOk then
    { resp := .success (aiResponseOf env) (contextDataOf env) env.processingTime qid,
      queryRows := [queryRowOf query userId qid],
      resultRows :=
        if env.resultInsertError.isSome then [] else [resultRowOf query qid env],
      modelPrompt := some (buildPrompt query (contextDataOf env)) }
  else
    { resp := .failure 500 ("Gemini API error: " ++ toString env.geminiStatus),
      queryRows := [queryRowOf query userId qid], resultRows := [],
      modelPrompt := some (buildPrompt query (contextDataOf env)) }

/-- The body of the serve handler for a search request (source lines
21-148).  Every throw lands in the final catch, which returns a
status-500 response carrying the error message; a failed query insert
throws before anything else happens. -/
def handleSearch (query userId : String) (env : Env) : Outcome :=
  match env.queryInsert with
  | .error e =>
      { resp := .failure 500 e, queryRows := [], resultRows := [],
        modelPrompt := none }
  | .ok qid => handleSearchOk query userId qid env

/-! ## Spec-level restatements

The following definitions are written from the words of the spec, not
from the source; refinement claims compare them with the source
embeddings above. -/

/-- Spec: the trimmed, lowercased query. -/
def trimLowerStr (q : String) : String := String.mk (trimWS (lowerStr q.data))

/-- Spec: the parts of splitting the query on commas and semicolons,
each trimmed and lowercased, with empty parts dropped, in their original
order. -/
def specFragments (q : String) : List (List Char) :=
  ((charSplit q.data).map (fun p => trimWS (lowerStr p))).filter (fun f => 0 < f.length)

/-- Spec: the query tokenized on whitespace into words (the
whitespace-delimited words of the query, no empty tokens, query not
altered otherwise). -/
def wsWords (q : String) : List (List Char) :=
  (jsSplitWS q.data).filter (fun w => 0 < w.length)

/-- The claimed confidence formula, read literally: 0.3 on an empty item
sequence; otherwise, with the (raw) query tokenized on whitespace into
words, total matches the sum over items of the number of query words
occurring as a substring of the lowercased concatenation of that item's
title and content, and total words the query word count times the number
of items, the clamp of their quotient into [0.1, 0.95]. -/
def claimedConfidence (q : String) (items : List Item) : ℚ :=
  if items.length = 0 then 3/10
  else
    min (95/100) (max (1/10)
      (((items.map (fun it =>
            countMatches (wsWords q) (lowerStr (it.title.data ++ it.content.data)))).sum : ℚ) /
        (((wsWords q).length * items.length : Nat) : ℚ)))

/-- The amended confidence formula: as claimed, but the tokens are the
JavaScript whitespace-split pieces of the lowercased query (boundary
whitespace contributes empty tokens, and an empty token is a substring of
every item), and the matched text is title, a space, and content,
lowercased. -/
def amendedConfidence (q : String) (items : List Item) : ℚ :=
  if items.length = 0 then 3/10
  else
    min (95/100) (max (1/10)
      (((items.map (fun it =>
            countMatches (jsSplitWS (lowerStr q.data)) (itemText it))).sum : ℚ) /
        (((jsSplitWS (lowerStr q.data)).length * items.length : Nat) : ℚ)))

/-! ## Helper lemmas -/

theorem toNat_ofNat_valid (n : Nat) (h : n < 55296) : (Char.ofNat n).toNat = n := by
  rw [Char.ofNat, dif_pos (Or.inl h)]
  rfl

theorem toLower_toNat (c : Char) :
    (Char.toLower c).toNat =
      if 65 ≤ c.toNat ∧ c.toNat ≤ 90 then c.toNat + 32 else c.toNat := by
  unfold Char.toLower
  split
  · next h => rw [if_pos (by omega)]; exact toNat_ofNat_valid _ (by omega)
  · next h => rw [if_neg (by omega)]

theorem isSep_toLower (c : Char) : isSep (Char.toLower c) = isSep c := by
  unfold isSep
  rw [toLower_toNat]
  by_cases h : 65 ≤ c.toNat ∧ c.toNat ≤ 90
  · rw [if_pos h]
    refine decide_eq_decide.mpr ?_
    omega
  · rw [if_neg h]

theorem dropWhile_ws_append {u x : List Char} (h : ∀ c ∈ u, isWS c = true) :
    (u ++ x).dropWhile isWS = x.dropWhile isWS := by
  induction u with
  | nil => rfl
  | cons a u ih =>
      rw [List.cons_append, List.dropWhile_cons, if_pos (h a (by simp))]
      exact ih (fun c hc => h c (by simp [hc]))

theorem trimWS_ws_append {u x : List Char} (h : ∀ c ∈ u, isWS c = true) :
    trimWS (u ++ x) = trimWS x := by
  unfold trimWS
  rw [dropWhile_ws_append h]

/-- Trimming erases the difference between the two separator splits: the
regex split moves the whitespace that follows a separator out of the next
piece, the character split leaves it as that piece's leading whitespace.
The accumulators are related by that pending whitespace `v`; while inside
a consumed whitespace run (`skip`), the regex-side accumulator is empty. -/
theorem map_trimWS_jsSplitSepAux (cs : List Char) :
    ∀ (skip : Bool) (accJ v : List Char),
      (∀ c ∈ v, isWS c = true) → (skip = true → accJ = []) →
      (jsSplitSepAux skip accJ cs).map trimWS = (charSplitAux (accJ ++ v) cs).map trimWS := by
  induction cs with
  | nil =>
      intro skip accJ v hv _
      simp only [jsSplitSepAux, charSplitAux, List.map_cons, List.map_nil]
      rw [List.reverse_append, trimWS_ws_append (fun c hc => hv c (List.mem_reverse.mp hc))]
  | cons c cs ih =>
      intro skip accJ v hv hs
      simp only [jsSplitSepAux, charSplitAux]
      by_cases hsep : isSep c = true
      · rw [if_pos hsep, if_pos hsep, List.map_cons, List.map_cons,
          List.reverse_append, trimWS_ws_append (fun d hd => hv d (List.mem_reverse.mp hd))]
        have htail := ih true [] [] (by intro d hd; cases hd) (fun _ => rfl)
        simp only [List.nil_append] at htail
        rw [htail]
      · rw [if_neg hsep, if_neg hsep]
        by_cases hskip : (skip && isWS c) = true
        · rw [if_pos hskip]
          have hab := hskip
          rw [Bool.and_eq_true] at hab
          have haj : accJ = [] := hs hab.1
          subst haj
          have htail := ih true [] (c :: v) (by
            intro d hd
            rcases List.mem_cons.mp hd with h | h
            · subst h; exact hab.2
            · exact hv d h) (fun _ => rfl)
          simp only [List.nil_append] at htail ⊢
          exact htail
        · rw [if_neg hskip]
          have htail := ih false (c :: accJ) v hv (by intro h; cases h)
          rw [List.cons_append] at htail
          exact htail

/-- Character-wise lowering commutes with the character split: lowering
never produces or erases a separator. -/
theorem charSplitAux_map_toLower (cs : List Char) :
    ∀ acc : List Char,
      charSplitAux (acc.map Char.toLower) (cs.map Char.toLower) =
        (charSplitAux acc cs).map lowerStr := by
  induction cs with
  | nil =>
      intro acc
      simp only [List.map_nil, charSplitAux, List.map_cons, lowerStr]
      rw [List.map_reverse]
  | cons c cs ih =>
      intro acc
      simp only [List.map_cons, charSplitAux, isSep_toLower]
      by_cases hsep : isSep c = true
      · rw [if_pos hsep, if_pos hsep, List.map_cons]
        have hhead : (acc.map Char.toLower).reverse = lowerStr acc.reverse := by
          simp only [lowerStr]
          rw [List.map_reverse]
        have htail := ih []
        simp only [List.map_nil] at htail
        rw [hhead, htail]
      · rw [if_neg hsep, if_neg hsep]
        have := ih (c :: acc)
        simpa only [List.map_cons] using this

/-- The cleaned fragment list the source computes coincides, for every
query, with the spec's description of it (split on the separators, trim
and lowercase each part, drop the empty parts). -/
theorem fragmentsOf_eq_specFragments (q : String) : fragmentsOf q = specFragments q := by
  unfold fragmentsOf specFragments jsSplitSep charSplit
  congr 1
  have h1 : (charSplitAux [] q.data).map (fun p => trimWS (lowerStr p)) =
      ((charSplitAux [] q.data).map lowerStr).map trimWS := by
    rw [List.map_map]; rfl
  rw [h1]
  have h2 : (charSplitAux [] q.data).map lowerStr = charSplitAux [] (lowerStr q.data) := by
    have h := charSplitAux_map_toLower q.data []
    simp only [List.map_nil] at h
    exact h.symm
  rw [h2]
  have h3 := map_trimWS_jsSplitSepAux (lowerStr q.data) false [] []
    (by intro d hd; cases hd) (by intro h; cases h)
  simp only [List.nil_append] at h3
  exact h3

/-- On input without separators the regex split returns the whole string
as its only piece. -/
theorem jsSplitSepAux_of_no_sep (cs : List Char) :
    ∀ acc : List Char, (∀ c ∈ cs, isSep c = false) →
      jsSplitSepAux false acc cs = [acc.reverse ++ cs] := by
  induction cs with
  | nil => intro acc _; simp [jsSplitSepAux]
  | cons c cs ih =>
      intro acc h
      have hc : isSep c = false := h c (by simp)
      simp only [jsSplitSepAux]
      rw [if_neg (by simp [hc]), if_neg (by simp)]
      rw [ih (c :: acc) (fun d hd => h d (by simp [hd]))]
      simp

/-- Without separators in the query at most one cleaned fragment remains. -/
theorem fragmentsOf_length_le_one (q : String)
    (h : ∀ c ∈ q.data, isSep c = false) : (fragmentsOf q).length ≤ 1 := by
  unfold fragmentsOf jsSplitSep
  have hl : ∀ c ∈ lowerStr q.data, isSep c = false := by
    intro c hc
    rcases List.mem_map.mp hc with ⟨d, hd, rfl⟩
    rw [isSep_toLower]; exact h d hd
  rw [jsSplitSepAux_of_no_sep _ _ hl]
  simp only [List.reverse_nil, List.nil_append, List.map_cons, List.map_nil]
  simpa using List.length_filter_le (fun f => 0 < f.length) [trimWS (lowerStr q.data)]

/-- The forEach of the scorer, in closed form: total matches is the sum of
the per-item match counts, total words is the item count times the word
count. -/
theorem scoreTotals_closed (ws : List (List Char)) (items : List Item) :
    scoreTotals ws items =
      ((items.map (fun it => countMatches ws (itemText it))).sum,
        items.length * ws.length) := by
  unfold scoreTotals
  suffices h : ∀ (a b : Nat),
      items.foldl
        (fun t item => (t.1 + countMatches ws (itemText item), t.2 + ws.length)) (a, b) =
        (a + (items.map (fun it => countMatches ws (itemText it))).sum,
          b + items.length * ws.length) by
    simpa using h 0 0
  induction items with
  | nil => intro a b; simp
  | cons it items ih =>
      intro a b
      simp only [List.foldl_cons, List.map_cons, List.sum_cons, List.length_cons]
      rw [ih]
      simp only [Prod.mk.injEq]
      constructor
      · ring
      · ring

/-! ## Claims about fragment extraction -/

/-- C2, counterexample: for the separator-free query Hello,
extractFragments returns the original string, not the trimmed lowercased
query the claim promises. -/
theorem extractFragments_trimLower_cex :
    extractFragments "Hello" ≠ [trimLowerStr "Hello"] := by decide

/-- C2, amended: for every non-empty query string containing no comma or
semicolon separator, fragment extraction returns a one-element sequence
whose single element equals the original query string. -/
theorem extractFragments_no_separator (q : String) (hq : q ≠ "")
    (h : ∀ c ∈ q.data, isSep c = false) : extractFragments q = [q] := by
  unfold extractFragments
  rw [if_neg (by have := fragmentsOf_length_le_one q h; omega)]

theorem extractFragments_no_separator_witness :
    ("Hello" : String) ≠ "" ∧ extractFragments "Hello" = ["Hello"] :=
  ⟨by decide, extractFragments_no_separator "Hello" (by decide) (by decide)⟩

/-- C5: for every query string containing commas or semicolons such that
splitting on those separators yields at least two non-empty parts,
fragment extraction returns exactly those parts, trimmed and lowercased
with empty parts dropped, in their original order. -/
theorem extractFragments_multi_piece (q : String)
    (hsep : ∃ c ∈ q.data, isSep c = true)
    (h2 : 2 ≤ (specFragments q).length) :
    extractFragments q = (specFragments q).map String.mk := by
  unfold extractFragments
  rw [fragmentsOf_eq_specFragments, if_pos (by omega)]

theorem extractFragments_multi_piece_witness :
    (∃ c ∈ ("a, B" : String).data, isSep c = true) ∧
      2 ≤ (specFragments "a, B").length ∧
      extractFragments "a, B" = (specFragments "a, B").map String.mk :=
  ⟨by decide, by decide, extractFragments_multi_piece "a, B" (by decide) (by decide)⟩

/-- C6: for every non-empty query whose split on comma/semicolon
separators yields at most one non-empty piece, fragment extraction
returns a single-element sequence containing the whole original query
string; and fragment extraction never returns an empty sequence for
non-empty input. -/
theorem extractFragments_single_piece (q : String) (hq : q ≠ "") :
    ((specFragments q).length ≤ 1 → extractFragments q = [q]) ∧
      extractFragments q ≠ [] := by
  constructor
  · intro h
    unfold extractFragments
    rw [if_neg (by rw [fragmentsOf_eq_specFragments]; omega)]
  · unfold extractFragments
    by_cases h : (fragmentsOf q).length > 1
    · rw [if_pos h]
      intro hcon
      rw [List.map_eq_nil_iff] at hcon
      rw [hcon] at h
      simp at h
    · rw [if_neg h]
      simp

theorem extractFragments_single_piece_witness :
    extractFragments "hi there" = ["hi there"] ∧ extractFragments "hi there" ≠ [] :=
  ⟨(extractFragments_single_piece "hi there" (by decide)).1 (by decide),
   (extractFragments_single_piece "hi there" (by decide)).2⟩

/-! ## Claims about confidence scoring -/

/-- C3, counterexample: for query A (uppercase, whose sole token the
claim would keep un-lowercased) and a single item titled a with empty
content, the code scores 0.95 while the claimed formula scores 0.1: the
code lowercases the query words and matches them against title, a space,
and content, while the claim reads as raw query words matched against
the bare concatenation of title and content. -/
theorem claimedConfidence_cex :
    calculateConfidenceScore "A" [⟨"a", "", [], ""⟩] ≠
      claimedConfidence "A" [⟨"a", "", [], ""⟩] := by
  have h1 : calculateConfidenceScore "A" [⟨"a", "", [], ""⟩] = 19/20 := by
    unfold calculateConfidenceScore
    rw [if_neg (by decide)]
    have hm : (scoreTotals (jsSplitWS (lowerStr ("A" : String).data))
        [⟨"a", "", [], ""⟩]).1 = 1 := by decide
    have hw : (scoreTotals (jsSplitWS (lowerStr ("A" : String).data))
        [⟨"a", "", [], ""⟩]).2 = 1 := by decide
    rw [hm, hw]
    norm_num [min_def, max_def]
  have h2 : claimedConfidence "A" [⟨"a", "", [], ""⟩] = 1/10 := by
    unfold claimedConfidence
    rw [if_neg (by decide)]
    have hm : ([(⟨"a", "", [], ""⟩ : Item)].map (fun it =>
        countMatches (wsWords "A") (lowerStr (it.title.data ++ it.content.data)))).sum = 0 := by
      decide
    have hw : (wsWords "A").length * [(⟨"a", "", [], ""⟩ : Item)].length = 1 := by decide
    rw [hm, hw]
    norm_num [min_def, max_def]
  rw [h1, h2]
  norm_num

/-- C3, amended: the confidence score equals the claimed closed formula
once the tokenization is the JavaScript whitespace split of the
lowercased query (so boundary whitespace contributes empty, always
matching, tokens) and the matched text is the lowercased title, space,
content concatenation. -/
theorem calculateConfidenceScore_eq_amended (query : String) (items : List Item) :
    calculateConfidenceScore query items = amendedConfidence query items := by
  unfold calculateConfidenceScore amendedConfidence
  by_cases h : items.length = 0
  · rw [if_pos h, if_pos h]
  · rw [if_neg h, if_neg h]
    simp only [scoreTotals_closed]
    rw [Nat.mul_comm]

/-- C4: the confidence score lies in [0.1, 0.95] whenever at least one
retrieved item exists, equals exactly 0.3 on an empty item sequence, and
on the marketing-presentation scenario equals exactly 0.95. -/
theorem confidenceScore_bounds (query : String) (items : List Item) :
    (items ≠ [] →
      1/10 ≤ calculateConfidenceScore query items ∧
        calculateConfidenceScore query items ≤ 95/100) ∧
    (items = [] → calculateConfidenceScore query items = 3/10) ∧
    calculateConfidenceScore "marketing presentation"
      [⟨"Q3 Marketing Deck", "presentation about marketing strategy", [], ""⟩] = 95/100 := by
  refine ⟨?_, ?_, ?_⟩
  · intro h
    unfold calculateConfidenceScore
    rw [if_neg (fun he => h (List.length_eq_zero.mp he))]
    constructor
    · exact le_min (by norm_num) (le_max_left _ _)
    · exact min_le_left _ _
  · intro h
    subst h
    rfl
  · unfold calculateConfidenceScore
    rw [if_neg (by decide)]
    have hm : (scoreTotals (jsSplitWS (lowerStr ("marketing presentation" : String).data))
        [⟨"Q3 Marketing Deck", "presentation about marketing strategy", [], ""⟩]).1 = 2 := by
      decide
    have hw : (scoreTotals (jsSplitWS (lowerStr ("marketing presentation" : String).data))
        [⟨"Q3 Marketing Deck", "presentation about marketing strategy", [], ""⟩]).2 = 2 := by
      decide
    rw [hm, hw]
    norm_num [min_def, max_def]

theorem confidenceScore_bounds_witness :
    ((1:ℚ)/10 ≤ calculateConfidenceScore "x" [⟨"t", "c", [], ""⟩] ∧
      calculateConfidenceScore "x" [⟨"t", "c", [], ""⟩] ≤ 95/100) ∧
      calculateConfidenceScore "x" [] = 3/10 :=
  ⟨(confidenceScore_bounds "x" [⟨"t", "c", [], ""⟩]).1 (by simp),
   (confidenceScore_bounds "x" []).2.1 rfl⟩

/-! ## Claims about the request handler -/

/-- C1, counterexample: with an empty query string and all collaborators
succeeding, the handler does not fail with any validation error: it
returns a success response, and a SearchQuery row for the empty query is
written. -/
theorem handleSearch_empty_query_cex :
    (handleSearch "" "u1"
        ⟨.ok "q1", some [], some "k", true, 200, some "hi", none, 5⟩).queryRows ≠ [] ∧
      (handleSearch "" "u1"
        ⟨.ok "q1", some [], some "k", true, 200, some "hi", none, 5⟩).resp =
        .success "hi" [] 5 "q1" := by
  exact ⟨by decide, by decide⟩

/-- When the query insert succeeds the handler proceeds with the
assigned row id. -/
theorem handleSearch_ok (query userId : String) (env : Env) (qid : String)
    (hq : env.queryInsert = .ok qid) :
    handleSearch query userId env = handleSearchOk query userId qid env := by
  unfold handleSearch
  rw [hq]

/-- C1, amended: the handler performs no input validation: for every
request with an empty query string whose query insert succeeds, whose
model key is present and whose model call succeeds, the operation
succeeds and a SearchQuery row for the empty query is written (with
fragment list containing just the empty string). -/
theorem handleSearch_empty_query (userId : String) (env : Env) (qid : String)
    (hq : env.queryInsert = .ok qid)
    (hkey : env.geminiApiKey.getD "" ≠ "")
    (hok : env.geminiOk = true) :
    (handleSearch "" userId env).queryRows =
      [{ id := qid, user_id := userId, query_text := "", query_fragments := [""] }] ∧
      ∃ r km pt, (handleSearch "" userId env).resp = .success r km pt qid := by
  rw [handleSearch_ok "" userId env qid hq]
  unfold handleSearchOk
  rw [if_neg hkey, if_pos hok]
  refine ⟨?_, _, _, _, rfl⟩
  show [queryRowOf "" userId qid] = _
  unfold queryRowOf
  rw [show extractFragments "" = [""] by decide]

theorem handleSearch_empty_query_witness :
    (handleSearch "" "u2"
        ⟨.ok "q2", some [], some "k", true, 200, some "ok", none, 7⟩).queryRows =
      [{ id := "q2", user_id := "u2", query_text := "", query_fragments := [""] }] ∧
      ∃ r km pt, (handleSearch "" "u2"
        ⟨.ok "q2", some [], some "k", true, 200, some "ok", none, 7⟩).resp =
        .success r km pt "q2" :=
  handleSearch_empty_query "u2" _ "q2" rfl (by decide) rfl

/-- C7: if the model credentials are missing or the model call returns a
non-2xx response, the handler fails with a status-500 error response, the
SearchQuery row written beforehand persists, and no SearchResult row is
created. -/
theorem handleSearch_model_failure (query userId : String) (env : Env) (qid : String)
    (hq : env.queryInsert = .ok qid)
    (hfail : env.geminiApiKey.getD "" = "" ∨ env.geminiOk = false) :
    (∃ msg, (handleSearch query userId env).resp = .failure 500 msg) ∧
      (handleSearch query userId env).queryRows =
        [{ id := qid, user_id := userId, query_text := query,
           query_fragments := extractFragments query }] ∧
      (handleSearch query userId env).resultRows = [] := by
  rw [handleSearch_ok query userId env qid hq]
  unfold handleSearchOk
  rcases hfail with h | h
  · rw [if_pos h]
    exact ⟨⟨_, rfl⟩, rfl, rfl⟩
  · by_cases hk : env.geminiApiKey.getD "" = ""
    · rw [if_pos hk]
      exact ⟨⟨_, rfl⟩, rfl, rfl⟩
    · rw [if_neg hk, if_neg (by simp [h])]
      exact ⟨⟨_, rfl⟩, rfl, rfl⟩

theorem handleSearch_model_failure_witness :
    (∃ msg, (handleSearch "q" "u"
        ⟨.ok "id1", some [], none, true, 200, some "hi", none, 3⟩).resp =
        .failure 500 msg) ∧
      (handleSearch "q" "u"
        ⟨.ok "id1", some [], none, true, 200, some "hi", none, 3⟩).queryRows =
        [{ id := "id1", user_id := "u", query_text := "q",
           query_fragments := extractFragments "q" }] ∧
      (handleSearch "q" "u"
        ⟨.ok "id1", some [], none, true, 200, some "hi", none, 3⟩).resultRows = [] :=
  handleSearch_model_failure "q" "u" _ "id1" rfl (Or.inl rfl)

/-- C8: for every valid request whose knowledge retrieval fails (the
handler sees no data), the operation still completes successfully with
knowledgeMatches = [], the model is still invoked with the empty-context
prompt, and any stored result row carries confidence 0.3. -/
theorem handleSearch_retrieval_failure (query userId : String) (env : Env) (qid : String)
    (hq : env.queryInsert = .ok qid)
    (hkd : env.knowledgeData = none)
    (hkey : env.geminiApiKey.getD "" ≠ "")
    (hok : env.geminiOk = true) :
    (∃ r pt, (handleSearch query userId env).resp = .success r [] pt qid) ∧
      (handleSearch query userId env).modelPrompt = some (buildPrompt query []) ∧
      ∀ rr ∈ (handleSearch query userId env).resultRows,
        rr.confidence_score = 3/10 := by
  have hctx : contextDataOf env = [] := by
    unfold contextDataOf
    rw [hkd]
    rfl
  rw [handleSearch_ok query userId env qid hq]
  unfold handleSearchOk
  rw [if_neg hkey, if_pos hok, hctx]
  refine ⟨⟨_, _, rfl⟩, rfl, ?_⟩
  intro rr hrr
  by_cases he : env.resultInsertError.isSome
  · simp only [if_pos he] at hrr
    cases hrr
  · simp only [if_neg he, List.mem_singleton] at hrr
    subst hrr
    show calculateConfidenceScore query (contextDataOf env) = 3/10
    rw [hctx]
    rfl

theorem handleSearch_retrieval_failure_witness :
    (∃ r pt, (handleSearch "blue folder" "u3"
        ⟨.ok "q3", none, some "k", true, 200, some "resp", none, 9⟩).resp =
        .success r [] pt "q3") ∧
      (handleSearch "blue folder" "u3"
        ⟨.ok "q3", none, some "k", true, 200, some "resp", none, 9⟩).modelPrompt =
        some (buildPrompt "blue folder" []) ∧
      ∀ rr ∈ (handleSearch "blue folder" "u3"
          ⟨.ok "q3", none, some "k", true, 200, some "resp", none, 9⟩).resultRows,
        rr.confidence_score = 3/10 :=
  handleSearch_retrieval_failure "blue folder" "u3" _ "q3" rfl rfl (by decide) rfl

/-- C9: if writing the SearchResult row fails after the model answered,
no result row is stored, but the handler still returns the computed
answer in a success response. -/
theorem handleSearch_result_write_failure (query userId : String) (env : Env) (qid e : String)
    (hq : env.queryInsert = .ok qid)
    (hkey : env.geminiApiKey.getD "" ≠ "")
    (hok : env.geminiOk = true)
    (herr : env.resultInsertError = some e) :
    (handleSearch query userId env).resultRows = [] ∧
      (handleSearch query userId env).resp =
        .success
          (if env.geminiText.getD "" = "" then "No response generated"
            else env.geminiText.getD "")
          (env.knowledgeData.getD []) env.processingTime qid := by
  rw [handleSearch_ok query userId env qid hq]
  unfold handleSearchOk
  rw [if_neg hkey, if_pos hok, herr]
  exact ⟨rfl, rfl⟩

theorem handleSearch_result_write_failure_witness :
    (handleSearch "q" "u"
        ⟨.ok "id1", some [], some "k", true, 200, some "hi", some "boom", 3⟩).resultRows = [] ∧
      (handleSearch "q" "u"
        ⟨.ok "id1", some [], some "k", true, 200, some "hi", some "boom", 3⟩).resp =
        .success "hi" [] 3 "id1" := by
  have h := handleSearch_result_write_failure "q" "u"
    ⟨.ok "id1", some [], some "k", true, 200, some "hi", some "boom", 3⟩ "id1" "boom"
    rfl (by decide) rfl rfl
  exact ⟨h.1, h.2⟩

/-- C10: on every successful request the stored rows are consistent with
each other and with the response: the single query row written has the
response's queryId and fragments computed by extractFragments, and every
stored result row links to that query row, repeats those fragments,
stores exactly the knowledge matches returned to the caller, and stores
the confidence computed from the query and those matches. -/
theorem handleSearch_consistency (query userId : String) (env : Env)
    (r : String) (km : List Item) (pt : Nat) (qid : String)
    (h : (handleSearch query userId env).resp = .success r km pt qid) :
    ∃ qrow, (handleSearch query userId env).queryRows = [qrow] ∧
      qrow.id = qid ∧ qrow.query_fragments = extractFragments query ∧
      ∀ rr ∈ (handleSearch query userId env).resultRows,
        rr.query_id = qid ∧ rr.result_data.fragments = qrow.query_fragments ∧
        rr.result_data.knowledge_matches = km ∧
        rr.confidence_score = calculateConfidenceScore query km := by
  rcases henv : env.queryInsert with e | qid0
  · unfold handleSearch at h
    rw [henv] at h
    simp at h
  · rw [handleSearch_ok query userId env qid0 henv] at h ⊢
    unfold handleSearchOk at h ⊢
    by_cases hk : env.geminiApiKey.getD "" = ""
    · rw [if_pos hk] at h
      simp at h
    · rw [if_neg hk] at h ⊢
      by_cases hgo : env.geminiOk = true
      · rw [if_pos hgo] at h ⊢
        simp only [Resp.success.injEq] at h
        obtain ⟨hr, hkm, hpt, hqid⟩ := h
        refine ⟨queryRowOf query userId qid0, rfl, hqid, rfl, ?_⟩
        intro rr hrr
        by_cases he : env.resultInsertError.isSome
        · simp only [if_pos he] at hrr
          cases hrr
        · simp only [if_neg he, List.mem_singleton] at hrr
          subst hrr
          refine ⟨hqid, rfl, hkm, ?_⟩
          show calculateConfidenceScore query (contextDataOf env) = _
          rw [hkm]
      · rw [if_neg hgo] at h
        simp at h

theorem handleSearch_consistency_witness :
    ∃ qrow, (handleSearch "a" "u"
        ⟨.ok "q1", some [], some "k", true, 200, some "hi", none, 5⟩).queryRows = [qrow] ∧
      qrow.id = "q1" ∧ qrow.query_fragments = extractFragments "a" ∧
      ∀ rr ∈ (handleSearch "a" "u"
          ⟨.ok "q1", some [], some "k", true, 200, some "hi", none, 5⟩).resultRows,
        rr.query_id = "q1" ∧ rr.result_data.fragments = qrow.query_fragments ∧
        rr.result_data.knowledge_matches = [] ∧
        rr.confidence_score = calculateConfidenceScore "a" [] :=
  handleSearch_consistency "a" "u" _ "hi" [] 5 "q1" (by decide)

end SmartRecall
